import Mathlib

/-!
Shallow embedding of the Solana transaction-lifecycle core of this
repository:

* `solana_instruction_builder.cc` — the bubblegum-program `Transfer`
  builder (compressed-NFT transfer instruction);
* `solana_tx_manager.cc` — `DecodeMerkleTreeAuthorityAndDepth`, the
  approve / retry / reconciliation state machine of `SolanaTxManager`;
* `simple_hash_client` — `ParseNFTsFromSimpleHash` spam-flag handling
  (modelled from the spec, the .cc file is not part of the sources).

Byte buffers are `List Nat` (each entry a `uint8_t` value), machine
integers are `Nat` with explicit `% 2 ^ 32` / `% 2 ^ 64` where the C++
performs fixed-width arithmetic, and fallible operations return
`Option`.
-/

/-- Fuel-bounded floor of the base-2 logarithm, kernel-computable;
`log2Fuel f n` is exact for every `n < 2 ^ (f + 1)`. -/
def log2Fuel : Nat → Nat → Nat
  | 0, _ => 0
  | f + 1, n => if n < 2 then 0 else log2Fuel f (n / 2) + 1

/-- On arguments below `2 ^ fuel` the fuel-bounded logarithm agrees with
`Nat.log2`. -/
theorem log2Fuel_eq_log2 (f n : Nat) (h : n < 2 ^ f) : log2Fuel f n = Nat.log2 n := by
  induction f generalizing n with
  | zero =>
    have hn : n = 0 := by simpa using h
    subst hn
    rw [Nat.log2]
    simp [log2Fuel]
  | succ f ih =>
    rw [log2Fuel, Nat.log2]
    by_cases h2 : n < 2
    · rw [if_pos h2, if_neg (by omega)]
    · have hdiv : n / 2 < 2 ^ f := by
        rw [Nat.div_lt_iff_lt_mul (by norm_num : (0 : Nat) < 2)]
        calc n < 2 ^ (f + 1) := h
        _ = 2 ^ f * 2 := by rw [pow_succ]
      rw [if_neg h2, if_pos (by omega), ih (n / 2) hdiv]

/-- `UintToLEBytes` from `solana_instruction_builder.cc`: a fixed-width
unsigned integer serialized as little-endian bytes (`width` is
`sizeof(T)`, 4 for `uint32_t`, 8 for `uint64_t`; byte `i` is
`(val >> 8 i) & 0xFF`, which also models the `static_cast` truncation of
the value to the width). -/
def uintToLEBytes (width val : Nat) : List Nat :=
  (List.range width).map fun i => val / 256 ^ i % 256

/-- The base-58 alphabet used by Solana addresses and hashes. -/
def base58Chars : List Char :=
  "123456789ABCDEFGHJKLMNPQRSTUVWXYZabcdefghijkmnopqrstuvwxyz".data

/-- Value of one base-58 digit, `none` for a character outside the
alphabet. -/
def base58CharValue (c : Char) : Option Nat :=
  base58Chars.findIdx? fun d => d = c

/-- Base-58 digit string read as a natural number. -/
def base58ToNat (cs : List Char) : Option Nat :=
  cs.foldl (fun acc c => acc.bind fun a => (base58CharValue c).map fun v => a * 58 + v)
    (some 0)

/-- Big-endian base-256 digits of `n` (no leading zero byte), with
structural fuel; `fuel` bounds the number of digits. -/
def natToBytesBE : Nat → Nat → List Nat
  | 0, _ => []
  | f + 1, n => if n = 0 then [] else natToBytesBE f (n / 256) ++ [n % 256]

/-- Modelled from the spec: `Base58Decode(str, &ret, len)` of
`common/encoding_utils` is not among the sources; per the spec the
builder requires root / data_hash / creator_hash to "base58-decode to
exactly 32 bytes (decode failure on any → build failure)".  Standard
base-58: leading `1` characters become leading zero bytes, the rest is
the big-endian value; the result must have exactly `len` bytes. -/
def base58Decode (s : String) (len : Nat) : Option (List Nat) :=
  match base58ToNat s.data with
  | none => none
  | some n =>
    let zeros := (s.data.takeWhile fun c => c = '1').length
    let bytes := List.replicate zeros 0 ++ natToBytesBE s.data.length n
    if bytes.length = len then some bytes else none

/-- `SolanaAccountMeta` (pubkey plus signer / writable flags; the
address-table-lookup field, always `std::nullopt` in the builder, is
omitted). -/
structure SolanaAccountMeta where
  pubkey : String
  isSigner : Bool
  isWritable : Bool
deriving DecidableEq

/-- `SolanaInstruction`: program id, ordered account metas, opaque data
bytes. -/
structure SolanaInstruction where
  programId : String
  accounts : List SolanaAccountMeta
  data : List Nat
deriving DecidableEq

/-- `SolCompressedNftProofData` from `simple_hash_client.h` (`leaf_index`
and `canopy_depth` are `uint64_t`). -/
structure SolCompressedNftProofData where
  root : String
  dataHash : String
  creatorHash : String
  owner : String
  proof : List String
  merkleTree : String
  delegate : String
  leafIndex : Nat
  canopyDepth : Nat
deriving DecidableEq

/-- `mojom::kSolanaSystemProgramId`. -/
def kSolanaSystemProgramId : String := "11111111111111111111111111111111"

/-- `mojom::kSolanaBubbleGumProgramId`. -/
def kSolanaBubbleGumProgramId : String := "BGUMAp9Gq7iTEuizy4pqaxsTyUCBK68MDfK752saRPUY"

/-- The `compression_program` constant of `bubblegum_program::Transfer`. -/
def compressionProgramId : String := "cmtDvXumGCrqC1Age74AVPhSRVXJMd8PJS91L8KbNCK"

/-- The `log_wrapper` constant of `bubblegum_program::Transfer`. -/
def logWrapperId : String := "noopb9bkMVfRPU8AsbpTUg8AQkHtKwMYZiFUjNRtMmV"

/-- The 8-byte anchor discriminator of the bubblegum transfer
instruction. -/
def bubblegumDiscriminator : List Nat := [163, 52, 200, 231, 140, 3, 69, 186]

/-- The fixed 8-account list built by `bubblegum_program::Transfer`
before the proof-path accounts are appended. -/
def bubblegumFixedAccounts (treeAuthority newLeafOwner : String)
    (proof : SolCompressedNftProofData) : List SolanaAccountMeta :=
  [⟨treeAuthority, false, false⟩,
   ⟨proof.owner, false, false⟩,
   ⟨proof.owner, false, false⟩,
   ⟨newLeafOwner, false, false⟩,
   ⟨proof.merkleTree, false, true⟩,
   ⟨logWrapperId, false, false⟩,
   ⟨compressionProgramId, false, false⟩,
   ⟨kSolanaSystemProgramId, false, false⟩]

/-- Outcome of the bubblegum `Transfer` builder.  `fail` is
`std::nullopt`; `oob` marks the execution in which the account-meta loop
indexes `proof.proof` past its end (undefined behaviour in the C++, the
function neither returns a value nor `std::nullopt`). -/
inductive TransferBuildResult where
  | ok (instr : SolanaInstruction)
  | fail
  | oob
deriving DecidableEq

/-- `solana::bubblegum_program::Transfer`.  The `canopyDepth` parameter
mirrors the C++ `canopy_depth` argument, which the body never reads: the
trailing-account count is `proof.proof.size() - proof.canopy_depth`,
computed in `size_t` (wrap-around modulo `2 ^ 64` on underflow).  When
that count exceeds the path length the loop indexes out of bounds,
modelled as `.oob`. -/
def bubblegumTransfer (canopyDepth : Nat) (treeAuthority newLeafOwner : String)
    (proof : SolCompressedNftProofData) : TransferBuildResult :=
  match base58Decode proof.root 32 with
  | none => .fail
  | some rootBytes =>
  match base58Decode proof.dataHash 32 with
  | none => .fail
  | some dataHashBytes =>
  match base58Decode proof.creatorHash 32 with
  | none => .fail
  | some creatorHashBytes =>
  let instructionData := bubblegumDiscriminator ++ rootBytes ++ dataHashBytes ++
    creatorHashBytes ++ uintToLEBytes 8 proof.leafIndex ++ uintToLEBytes 4 proof.leafIndex
  let endCount := (proof.proof.length + 2 ^ 64 - proof.canopyDepth % 2 ^ 64) % 2 ^ 64
  if endCount ≤ proof.proof.length then
    .ok ⟨kSolanaBubbleGumProgramId,
         bubblegumFixedAccounts treeAuthority newLeafOwner proof ++
           (proof.proof.take endCount).map fun pk => ⟨pk, false, false⟩,
         instructionData⟩
  else .oob

/-- `DecodeUint8` from `solana_tx_manager.cc`: bounds-checked single-byte
read at `offset` (the value is a `uint8_t`). -/
def decodeUint8 (input : List Nat) (offset : Nat) : Option Nat :=
  if offset ≥ input.length ∨ input.length - offset < 1 then none
  else some (input.getD offset 0 % 256)

/-- `DecodeUint32` from `solana_tx_manager.cc`: bounds-checked
little-endian `uint32_t` read at `offset`. -/
def decodeUint32 (input : List Nat) (offset : Nat) : Option Nat :=
  if offset ≥ input.length ∨ input.length - offset < 4 then none
  else some ((input.getD offset 0 + 256 * input.getD (offset + 1) 0 +
    256 ^ 2 * input.getD (offset + 2) 0 + 256 ^ 3 * input.getD (offset + 3) 0) % 2 ^ 32)

/-- `DecodePublicKey` from `solana_tx_manager.cc`: bounds-checked 32-byte
read at `offset`.  The C++ returns the bytes base58-encoded; the decoder
immediately re-parses them via `SolanaAddress::FromBase58`, a roundtrip
that succeeds for every 32-byte key, so the model keeps the raw bytes. -/
def decodePublicKey (input : List Nat) (offset : Nat) : Option (List Nat) :=
  if offset ≥ input.length ∨ input.length - offset < 32 then none
  else some ((input.drop offset).take 32)

/-- Total offset consumed by `DecodeMerkleTreeAuthorityAndDepth` before
the canopy: 42 header bytes, 8 + 6 skipped header-tail bytes, 24 skipped
tree-scalar bytes, `maxBufferSize` change-log entries and one rightmost
path, each entry `32 + 32 * maxDepth + 4 + 4` bytes.  The per-entry size
is computed in `unsigned int` in the C++ (`32 * *max_depth` wraps modulo
`2 ^ 32`); the accumulated sum stays below `2 ^ 64`, so the `size_t`
accumulation itself never wraps. -/
def merkleTotalOffset (maxBufferSize maxDepth : Nat) : Nat :=
  80 + (maxBufferSize + 1) * ((40 + 32 * maxDepth) % 2 ^ 32)

/-- Round-to-nearest-even of a natural number to 53 significant bits —
the IEEE-754 double rounding applied by the `uint64_t`-to-`double`
conversion and by the addition in the canopy computation (the identity
below `2 ^ 53`). -/
def roundNat53 (n : Nat) : Nat :=
  if log2Fuel 64 n + 1 ≤ 53 then n
  else
    let e := log2Fuel 64 n + 1 - 53
    let q := n / 2 ^ e
    let r := n % 2 ^ e
    if r > 2 ^ (e - 1) ∨ (r = 2 ^ (e - 1) ∧ q % 2 = 1) then (q + 1) * 2 ^ e
    else q * 2 ^ e

/-- The canopy-depth computation at the end of
`DecodeMerkleTreeAuthorityAndDepth`: zero bytes give depth 0, otherwise
the code computes `std::log2(canopy_byte_length / 32.0 + 2) - 1` in
`double` and truncates to `uint32_t`.  The model applies the pipeline's
IEEE-754 roundings exactly: `canopy_byte_length` is rounded to 53
significant bits by the int-to-double conversion, the division by 32 is
exact (an exponent shift), and the `+ 2` rounds once more, so the
operand of `std::log2` is `t / 32` with
`t = roundNat53 (roundNat53 canopy_byte_length + 64)`.  With
`2 ^ k ≤ t / 32 < 2 ^ (k + 1)` the truncated result of `log2 - 1` is
`k - 1` (that is, `log2Fuel 64 t - 6`) for every `std::log2`
implementation that is exact on powers of two and within half an ulp
elsewhere — except for operands within half an ulp below the next power
of two, which no canopy byte length under `2 ^ 45` (far beyond any real
account buffer) can produce; every concrete input used below stays
outside that sliver. -/
def canopyDepthFromBytes (canopyByteLength : Nat) : Nat :=
  if canopyByteLength = 0 then 0
  else log2Fuel 64 (roundNat53 (roundNat53 canopyByteLength + 64)) - 6

/-- `SolanaTxManager::DecodeMerkleTreeAuthorityAndDepth`.  Header reads
are bounds-checked; the change-log ring buffer and rightmost path are
only skipped by advancing `offset`, and `data.size() - offset` is
`size_t` arithmetic, wrapping modulo `2 ^ 64` when the buffer is shorter
than the skipped region. -/
def decodeMerkleTreeAuthorityAndDepth (data : List Nat) : Option (Nat × List Nat) :=
  match decodeUint8 data 0 with
  | none => none
  | some compressionAccountType =>
  if compressionAccountType ≠ 1 then none else
  match decodeUint8 data 1 with
  | none => none
  | some version =>
  if version ≠ 0 then none else
  match decodeUint32 data 2 with
  | none => none
  | some maxBufferSize =>
  match decodeUint32 data 6 with
  | none => none
  | some maxDepth =>
  match decodePublicKey data 10 with
  | none => none
  | some authority =>
  let canopyByteLength :=
    (data.length % 2 ^ 64 + 2 ^ 64 - merkleTotalOffset maxBufferSize maxDepth) % 2 ^ 64
  some (canopyDepthFromBytes canopyByteLength, authority)

/-- `mojom::TransactionStatus` (the values the Solana manager uses). -/
inductive TransactionStatus where
  | Unapproved
  | Approved
  | Submitted
  | Confirmed
  | Error
  | Dropped
deriving DecidableEq

/-- `SolanaSignatureStatus` (brave_wallet_types): slot, confirmation
count, error string, confirmation-status string. -/
structure SolanaSignatureStatus where
  slot : Nat
  confirmations : Option Nat
  err : String
  confirmationStatus : String
deriving DecidableEq

/-- The default-constructed `SolanaSignatureStatus()`. -/
def emptySignatureStatus : SolanaSignatureStatus := ⟨0, none, "", ""⟩

/-- The fields of `SolanaMessage` the manager reads and writes.
`UsesDurableNonce()` is a derived predicate of the message's
instructions (`solana_message.cc`, outside the sources), modelled as a
field; `lastValidBlockHeight` is a `uint64_t`, 0 meaning unset. -/
structure SolanaMessage where
  recentBlockhash : String
  lastValidBlockHeight : Nat
  usesDurableNonce : Bool
deriving DecidableEq

/-- `SolanaTxMeta` — the transaction metadata the manager mutates.
Times are `Nat` with 0 for the null `base::Time()`; `retriable` models
`IsRetriable()` (computed outside the sources); `hasSignTxParam` models
whether `sign_tx_param` is non-null. -/
structure SolanaTxMeta where
  id : String
  chainId : String
  status : TransactionStatus
  createdTime : Nat
  submittedTime : Nat
  confirmedTime : Nat
  txHash : String
  signatureStatus : SolanaSignatureStatus
  msg : SolanaMessage
  retriable : Bool
  hasSignTxParam : Bool
  rawSignatures : List (List Nat)
deriving DecidableEq

/-- Result of one reconciliation step on one transaction: the (possibly
updated) meta and whether `AddOrUpdateTx` was invoked for it. -/
structure TxUpdate where
  meta : SolanaTxMeta
  persisted : Bool
deriving DecidableEq

/-- The loop body of `SolanaTxManager::OnGetSignatureStatuses` for one
Submitted transaction: `blockHeight` is the freshly fetched chain
height, `status` the signature status returned for the transaction's
hash (`none` when the node knows nothing about it), `now` the
`base::Time::Now()` recorded on confirmation. -/
def onSignatureStatusForTx (now blockHeight : Nat) (meta : SolanaTxMeta)
    (status : Option SolanaSignatureStatus) : TxUpdate :=
  match status with
  | none =>
    if meta.msg.lastValidBlockHeight ≠ 0 ∧ meta.msg.lastValidBlockHeight < blockHeight then
      ⟨{ meta with status := .Dropped }, true⟩
    else ⟨meta, false⟩
  | some s =>
    if s.err ≠ "" then
      ⟨{ meta with signatureStatus := s, status := .Error }, true⟩
    else if s.confirmationStatus ≠ "" then
      if s.confirmationStatus = "finalized" then
        ⟨{ meta with signatureStatus := s, status := .Confirmed, confirmedTime := now }, true⟩
      else ⟨{ meta with signatureStatus := s }, true⟩
    else ⟨meta, false⟩

/-- Which RPC round-trip `ApproveTransaction` issues first. -/
inductive RpcFetch where
  | latestBlockhash
  | blockHeight
deriving DecidableEq

/-- Observable effects of the approve flow, in execution order. -/
inductive TxEffect where
  | fetch (kind : RpcFetch)
  | persist (meta : SolanaTxMeta)
  | submit (id : String)
deriving DecidableEq

/-- Responses of the manager's collaborators during one approve flow:
the latest-blockhash result (value, last-valid-block-height, error
flag), the block-height result, and whether `AddOrUpdateTx` succeeds. -/
structure ApproveEnv where
  latestBlockhash : String
  latestValidBlockHeight : Nat
  latestBlockhashError : Bool
  blockHeight : Nat
  blockHeightError : Bool
  persistOk : Bool
deriving DecidableEq

/-- `kValidBlockHeightThreshold` — the chain's standard blockhash
validity window. -/
def kValidBlockHeightThreshold : Nat := 150

/-- The meta as `SolanaTxManager::OnGetLatestBlockhash` persists it:
status Approved, blockhash and last-valid-block-height set together. -/
def approvedMeta (meta : SolanaTxMeta) (blockhash : String)
    (lastValidBlockHeight : Nat) : SolanaTxMeta :=
  { meta with
    status := .Approved,
    msg := { meta.msg with
      recentBlockhash := blockhash,
      lastValidBlockHeight := lastValidBlockHeight } }

/-- `SolanaTxManager::OnGetLatestBlockhash` (success path persists then
submits; an RPC or persistence failure surfaces the error without
submitting). -/
def onGetLatestBlockhash (meta : SolanaTxMeta) (persistOk : Bool)
    (latestBlockhash : String) (lastValidBlockHeight : Nat) (isError : Bool) :
    List TxEffect :=
  if isError then []
  else
    let updated := approvedMeta meta latestBlockhash lastValidBlockHeight
    .persist updated :: if persistOk then [.submit updated.id] else []

/-- `SolanaTxManager::OnGetBlockHeightForBlockhash`: on success forwards
to `OnGetLatestBlockhash` with the existing blockhash and
`block_height + kValidBlockHeightThreshold` (`uint64_t` addition). -/
def onGetBlockHeightForBlockhash (meta : SolanaTxMeta) (persistOk : Bool)
    (blockhash : String) (blockHeight : Nat) (isError : Bool) : List TxEffect :=
  if isError then []
  else onGetLatestBlockhash meta persistOk blockhash
    ((blockHeight + kValidBlockHeightThreshold) % 2 ^ 64) false

/-- `SolanaTxManager::ApproveTransaction` for an existing meta, with the
asynchronous continuations inlined into one effect trace. -/
def approveTransaction (meta : SolanaTxMeta) (env : ApproveEnv) : List TxEffect :=
  if meta.msg.recentBlockhash = "" then
    .fetch .latestBlockhash ::
      onGetLatestBlockhash meta env.persistOk env.latestBlockhash
        env.latestValidBlockHeight env.latestBlockhashError
  else
    .fetch .blockHeight ::
      onGetBlockHeightForBlockhash meta env.persistOk meta.msg.recentBlockhash
        env.blockHeight env.blockHeightError

/-- `SolanaTxManager::RetryTransaction` for an existing meta: `none`
when the transaction is not retriable, otherwise the meta handed to
`AddOrUpdateTx` (`newId` models `TxMeta::GenerateMetaID()`, `now` models
`base::Time::Now()`). -/
def retryTransaction (meta : SolanaTxMeta) (newId : String) (now : Nat) :
    Option SolanaTxMeta :=
  if ¬ meta.retriable then none
  else
    let tx1 :=
      if ¬ meta.msg.usesDurableNonce then
        { meta with
          msg := { meta.msg with recentBlockhash := "" },
          hasSignTxParam := false }
      else meta
    some { tx1 with
      msg := { tx1.msg with lastValidBlockHeight := 0 },
      id := newId,
      status := .Unapproved,
      createdTime := now,
      submittedTime := 0,
      confirmedTime := 0,
      txHash := "",
      signatureStatus := emptySignatureStatus,
      rawSignatures := [] }

/-- The meta as `OnGetLatestBlockhashForGetEstimatedTxFee` rewrites it on
success before pricing the message: blockhash and
last-valid-block-height re-fetched together. -/
def feeEstimationMeta (meta : SolanaTxMeta) (latestBlockhash : String)
    (lastValidBlockHeight : Nat) : SolanaTxMeta :=
  { meta with msg := { meta.msg with
      recentBlockhash := latestBlockhash,
      lastValidBlockHeight := lastValidBlockHeight } }

/-- The data-model invariant of §3 of the spec: blockhash and
last-valid-block-height are set together, never independently. -/
def blockhashHeightInvariant (m : SolanaMessage) : Prop :=
  m.recentBlockhash = "" ↔ m.lastValidBlockHeight = 0

/-- Modelled from the spec: one element of the indexer response's `nfts`
array, after JSON reading (`simple_hash_client.cc` is not among the
sources).  `none` marks an absent (or, for `tokenId`, an explicit null)
field; `spamScore` is the nested collection spam score, `none` when the
collection object is missing. -/
structure SimpleHashNft where
  chain : Option String
  contractAddress : Option String
  tokenId : Option String
  symbol : Option String
  contractType : Option String
  spamScore : Option Int
deriving DecidableEq

/-- The canonical NFT record produced for one parsed element (the fields
the spam-flag claims concern). -/
structure NFTRecord where
  chainId : String
  contractAddress : String
  tokenId : String
  symbol : String
  isErc721 : Bool
  isErc1155 : Bool
  isNft : Bool
  isSpam : Bool
deriving DecidableEq

/-- Modelled from the spec: the indexer chain slug mapped back to a
chain id; unmapped slugs drop the record. -/
def simpleHashChainIdToChainId (slug : String) : Option String :=
  if slug = "solana" then some "0x65"
  else if slug = "ethereum" then some "0x1"
  else none

/-- Modelled from the spec: conversion of one `nfts` element to a
record.  A record missing the chain slug (or with an unmapped slug), the
contract address, the contract-type field or the collection spam score
is silently dropped; an absent token id becomes the empty string; a null
symbol normalizes to the empty string; the "NonFungible" family sets
`isNft` without any ERC flag; a positive spam score marks the record as
spam. -/
def nftFromSimpleHash (e : SimpleHashNft) : Option NFTRecord :=
  match e.chain.bind simpleHashChainIdToChainId with
  | none => none
  | some chainId =>
  match e.contractAddress with
  | none => none
  | some addr =>
  match e.contractType with
  | none => none
  | some ctype =>
  match e.spamScore with
  | none => none
  | some score =>
  some { chainId := chainId,
         contractAddress := addr,
         tokenId := e.tokenId.getD "",
         symbol := e.symbol.getD "",
         isErc721 := ctype == "ERC721",
         isErc1155 := ctype == "ERC1155",
         isNft := ctype == "NonFungible" || ctype == "NonFungibleEdition" ||
           ctype == "ProgrammableNonFungible" || ctype == "ERC721" || ctype == "ERC1155",
         isSpam := decide (0 < score) }

/-- Modelled from the spec:
`SimpleHashClient::ParseNFTsFromSimpleHash` restricted to a page whose
top level already passed the object-with-`nfts`-array check.
`skip_spam` and `only_spam` simultaneously true is a caller error and
yields no result; otherwise `skip_spam` drops spam records, `only_spam`
keeps only spam records, and with both flags false every parseable
record of the page is returned. -/
def parseNFTsFromSimpleHash (nfts : List SimpleHashNft) (skipSpam onlySpam : Bool) :
    Option (List NFTRecord) :=
  if skipSpam && onlySpam then none
  else some (nfts.filterMap fun e =>
    (nftFromSimpleHash e).bind fun r =>
      if skipSpam && r.isSpam then none
      else if onlySpam && !r.isSpam then none
      else some r)

/-- A 42-byte Merkle-tree account buffer: valid header (account type 1,
version 0, maxBufferSize 0, maxDepth 0, 32-byte authority) but no bytes
at all for the skipped header tail, tree scalars, change-log ring buffer
and rightmost path, which for these header values need 120 bytes. -/
def merkleTruncatedBuffer : List Nat := 1 :: 0 :: List.replicate 40 0

/-- C1: for every input byte buffer, `DecodeMerkleTreeAuthorityAndDepth`
is claimed to be total and bounds-checked, with a buffer too short for
the change-log ring buffer or the rightmost-path record returning absent
rather than underflowing the trailing-bytes computation.  The code
checks only the header reads: on this 42-byte buffer (shorter than the
120 bytes its header demands) `data.size() - offset` wraps to
`2 ^ 64 - 78`, the int-to-double conversion rounds that to `2 ^ 64`, and
the decoder returns a present result with the garbage canopy depth 58
instead of absent. -/
theorem merkleDecode_truncated_ring_buffer_present :
    merkleTruncatedBuffer.length < merkleTotalOffset 0 0 ∧
    decodeMerkleTreeAuthorityAndDepth merkleTruncatedBuffer =
      some (58, List.replicate 32 0) := by
  constructor
  · decide
  · decide

/-- A proof input whose `canopy_depth` (1) exceeds the length of its
proof path (0); the three hashes are the base-58 encoding of 32 zero
bytes, so every decode in the builder succeeds. -/
def underflowProofData : SolCompressedNftProofData :=
  { root := "11111111111111111111111111111111",
    dataHash := "11111111111111111111111111111111",
    creatorHash := "11111111111111111111111111111111",
    owner := "ownerPubkey",
    proof := [],
    merkleTree := "merkleTreePubkey",
    delegate := "",
    leafIndex := 0,
    canopyDepth := 1 }

/-- C2: the claim says a build with `canopy_depth > len(proof_path)`
fails (returns absent) and the subtraction never underflows.  The code
has no such check: on this input `proof.proof.size() - proof.canopy_depth`
wraps to `2 ^ 64 - 1` in `size_t` and the account-meta loop indexes the
empty proof path out of bounds (undefined behaviour) instead of
returning `std::nullopt`. -/
theorem bubblegumTransfer_canopy_underflow_oob :
    underflowProofData.canopyDepth > underflowProofData.proof.length ∧
    bubblegumTransfer 1 "treeAuthorityPubkey" "newOwnerPubkey" underflowProofData =
      .oob := by
  constructor
  · decide
  · decide

/-- C10: a Submitted transaction whose message's last-valid-block-height
is 0 is never transitioned to Dropped by a reconciliation step, even
with no signature status returned and an arbitrarily large current
block height; the meta is left untouched and not persisted. -/
theorem reconcile_zero_height_never_dropped (meta : SolanaTxMeta)
    (now blockHeight : Nat) (hSubmitted : meta.status = .Submitted)
    (hZero : meta.msg.lastValidBlockHeight = 0) :
    (onSignatureStatusForTx now blockHeight meta none).meta.status = .Submitted ∧
    onSignatureStatusForTx now blockHeight meta none = ⟨meta, false⟩ := by
  have : ¬ (meta.msg.lastValidBlockHeight ≠ 0 ∧
      meta.msg.lastValidBlockHeight < blockHeight) := by
    simp [hZero]
  constructor
  · simp [onSignatureStatusForTx, this, hSubmitted]
  · simp [onSignatureStatusForTx, this]

/-- A Submitted transaction with unset (zero) last-valid-block-height. -/
def zeroHeightSubmittedMeta : SolanaTxMeta :=
  { id := "meta1",
    chainId := "0x65",
    status := .Submitted,
    createdTime := 1,
    submittedTime := 2,
    confirmedTime := 0,
    txHash := "signature1",
    signatureStatus := emptySignatureStatus,
    msg := { recentBlockhash := "hash1", lastValidBlockHeight := 0,
             usesDurableNonce := false },
    retriable := true,
    hasSignTxParam := false,
    rawSignatures := [] }

/-- Witness for C10 at a concrete Submitted meta and block height
1000000. -/
theorem reconcile_zero_height_never_dropped_witness :
    zeroHeightSubmittedMeta.status = .Submitted ∧
    zeroHeightSubmittedMeta.msg.lastValidBlockHeight = 0 ∧
    (onSignatureStatusForTx 7 1000000 zeroHeightSubmittedMeta none).meta.status =
      .Submitted :=
  ⟨by decide, by decide,
    (reconcile_zero_height_never_dropped zeroHeightSubmittedMeta 7 1000000
      (by decide) (by decide)).1⟩

/-- Counterexample to C3 as stated: a Submitted transaction with
last-valid-block-height 0 (< the fetched height 1000) and no signature
status returned is claimed to become Dropped, but the reconciliation
step leaves it Submitted because the code also requires a nonzero
last-valid-block-height. -/
theorem reconcile_cases_counterexample :
    zeroHeightSubmittedMeta.msg.lastValidBlockHeight < 1000 ∧
    (onSignatureStatusForTx 7 1000 zeroHeightSubmittedMeta none).meta.status ≠
      TransactionStatus.Dropped ∧
    (onSignatureStatusForTx 7 1000 zeroHeightSubmittedMeta none).meta.status =
      .Submitted := by
  refine ⟨by decide, by decide, by decide⟩

/-- C3 amended: during reconciliation, for a Submitted transaction
examined against the fetched block height and its signature status:
with no status returned the transaction becomes Dropped exactly when its
last-valid-block-height is nonzero and below the current height
(otherwise it is left untouched); a status with a non-empty error field
sets status Error (storing the signature status); a status with no error
and confirmation level "finalized" sets status Confirmed and records the
confirmation timestamp; any other returned status with a non-empty
confirmation level only updates the stored signature status, and a
returned status with empty error and empty confirmation level leaves
the meta untouched and unpersisted. -/
theorem reconcile_signature_status_cases (now blockHeight : Nat)
    (meta : SolanaTxMeta) (st : Option SolanaSignatureStatus) :
    (st = none → meta.msg.lastValidBlockHeight ≠ 0 →
      meta.msg.lastValidBlockHeight < blockHeight →
      onSignatureStatusForTx now blockHeight meta st =
        ⟨{ meta with status := .Dropped }, true⟩) ∧
    (st = none →
      (meta.msg.lastValidBlockHeight = 0 ∨
        ¬ meta.msg.lastValidBlockHeight < blockHeight) →
      onSignatureStatusForTx now blockHeight meta st = ⟨meta, false⟩) ∧
    (∀ s, st = some s → s.err ≠ "" →
      onSignatureStatusForTx now blockHeight meta st =
        ⟨{ meta with signatureStatus := s, status := .Error }, true⟩) ∧
    (∀ s, st = some s → s.err = "" → s.confirmationStatus = "finalized" →
      onSignatureStatusForTx now blockHeight meta st =
        ⟨{ meta with
            signatureStatus := s
            status := .Confirmed
            confirmedTime := now }, true⟩) ∧
    (∀ s, st = some s → s.err = "" → s.confirmationStatus ≠ "" →
      s.confirmationStatus ≠ "finalized" →
      onSignatureStatusForTx now blockHeight meta st =
        ⟨{ meta with signatureStatus := s }, true⟩ ∧
      (onSignatureStatusForTx now blockHeight meta st).meta.status = meta.status) ∧
    (∀ s, st = some s → s.err = "" → s.confirmationStatus = "" →
      onSignatureStatusForTx now blockHeight meta st = ⟨meta, false⟩) := by
  refine ⟨?_, ?_, ?_, ?_, ?_, ?_⟩
  · intro h h1 h2
    subst h
    simp [onSignatureStatusForTx, h1, h2]
  · intro h h1
    subst h
    rcases h1 with h1 | h1 <;> simp [onSignatureStatusForTx, h1]
  · intro s h h1
    subst h
    simp [onSignatureStatusForTx, h1]
  · intro s h h1 h2
    subst h
    simp [onSignatureStatusForTx, h1, h2]
  · intro s h h1 h2 h3
    subst h
    constructor
    · simp [onSignatureStatusForTx, h1, h2, h3]
    · simp [onSignatureStatusForTx, h1, h2, h3]
  · intro s h h1 h2
    subst h
    simp [onSignatureStatusForTx, h1, h2]

/-- A Submitted transaction with a nonzero last-valid-block-height, used
to exercise the Dropped branch. -/
def expiredSubmittedMeta : SolanaTxMeta :=
  { zeroHeightSubmittedMeta with
    id := "meta2",
    msg := { recentBlockhash := "hash2", lastValidBlockHeight := 900,
             usesDurableNonce := false } }

/-- Witness for C3 amended: with no status returned, height 900 < 1000
drops the concrete transaction. -/
theorem reconcile_signature_status_cases_witness :
    expiredSubmittedMeta.msg.lastValidBlockHeight ≠ 0 ∧
    expiredSubmittedMeta.msg.lastValidBlockHeight < 1000 ∧
    onSignatureStatusForTx 7 1000 expiredSubmittedMeta none =
      ⟨{ expiredSubmittedMeta with status := .Dropped }, true⟩ :=
  ⟨by decide, by decide,
    (reconcile_signature_status_cases 7 1000 expiredSubmittedMeta none).1 rfl
      (by decide) (by decide)⟩

/-- C4: approving a transaction whose message's blockhash is empty
issues a latest-blockhash fetch (which also supplies the
last-valid-block-height); approving one whose blockhash is already set
instead issues only a block-height fetch and derives
`last_valid_block_height = height + 150`; in both branches blockhash and
last-valid-block-height are set together on the meta, which is persisted
before the signed transaction is submitted (the persist effect precedes
the submit effect in the trace). -/
theorem approve_sets_blockhash_and_height (meta : SolanaTxMeta) (env : ApproveEnv)
    (hNoBlockhashError : env.latestBlockhashError = false)
    (hNoHeightError : env.blockHeightError = false)
    (hPersistOk : env.persistOk = true)
    (hNoOverflow : env.blockHeight + kValidBlockHeightThreshold < 2 ^ 64) :
    (meta.msg.recentBlockhash = "" →
      approveTransaction meta env =
        [.fetch .latestBlockhash,
         .persist (approvedMeta meta env.latestBlockhash env.latestValidBlockHeight),
         .submit meta.id]) ∧
    (meta.msg.recentBlockhash ≠ "" →
      approveTransaction meta env =
        [.fetch .blockHeight,
         .persist (approvedMeta meta meta.msg.recentBlockhash
           (env.blockHeight + kValidBlockHeightThreshold)),
         .submit meta.id]) := by
  constructor
  · intro hEmpty
    simp [approveTransaction, hEmpty, onGetLatestBlockhash, hNoBlockhashError,
      hPersistOk, approvedMeta]
  · intro hSet
    have hMod : (env.blockHeight + kValidBlockHeightThreshold) % 2 ^ 64 =
        env.blockHeight + kValidBlockHeightThreshold := Nat.mod_eq_of_lt hNoOverflow
    simp only [approveTransaction, if_neg hSet, onGetBlockHeightForBlockhash,
      hNoHeightError, onGetLatestBlockhash, hPersistOk, hMod, if_false, if_true,
      Bool.false_eq_true]
    simp [approvedMeta]

/-- An Unapproved transaction with an already-set blockhash. -/
def presetBlockhashMeta : SolanaTxMeta :=
  { zeroHeightSubmittedMeta with
    id := "meta3",
    status := .Unapproved,
    txHash := "",
    submittedTime := 0,
    msg := { recentBlockhash := "presetHash", lastValidBlockHeight := 0,
             usesDurableNonce := false } }

/-- A collaborator environment in which every call succeeds. -/
def happyApproveEnv : ApproveEnv :=
  { latestBlockhash := "freshHash",
    latestValidBlockHeight := 1150,
    latestBlockhashError := false,
    blockHeight := 2000,
    blockHeightError := false,
    persistOk := true }

/-- Witness for C4: approving the concrete preset-blockhash transaction
fetches only the block height and persists blockhash together with
`2000 + 150` before submitting. -/
theorem approve_sets_blockhash_and_height_witness :
    happyApproveEnv.latestBlockhashError = false ∧
    happyApproveEnv.blockHeightError = false ∧
    happyApproveEnv.persistOk = true ∧
    happyApproveEnv.blockHeight + kValidBlockHeightThreshold < 2 ^ 64 ∧
    approveTransaction presetBlockhashMeta happyApproveEnv =
      [.fetch .blockHeight,
       .persist (approvedMeta presetBlockhashMeta "presetHash" 2150),
       .submit "meta3"] :=
  ⟨by decide, by decide, by decide, by decide,
    (approve_sets_blockhash_and_height presetBlockhashMeta happyApproveEnv
      (by decide) (by decide) (by decide) (by decide)).2 (by decide)⟩

/-- C5: retry succeeds only on a retriable transaction, and then: with a
durable-nonce message the blockhash (and the cached `sign_tx_param`) is
preserved, otherwise both are cleared; in all cases the
last-valid-block-height is cleared, raw signatures are cleared, the
transaction hash and stored signature status are reset, a new id is
allocated, the status is reset to Unapproved and the
submitted/confirmed timestamps are unset; the returned meta is the one
handed to `AddOrUpdateTx` for persistence. -/
theorem retry_transaction_resets (meta : SolanaTxMeta) (newId : String) (now : Nat) :
    (meta.retriable = false → retryTransaction meta newId now = none) ∧
    (meta.retriable = true →
      ∃ m, retryTransaction meta newId now = some m ∧
        m.msg.recentBlockhash =
          (if meta.msg.usesDurableNonce then meta.msg.recentBlockhash else "") ∧
        m.hasSignTxParam =
          (if meta.msg.usesDurableNonce then meta.hasSignTxParam else false) ∧
        m.msg.lastValidBlockHeight = 0 ∧
        m.rawSignatures = [] ∧
        m.id = newId ∧
        m.status = .Unapproved ∧
        m.createdTime = now ∧
        m.submittedTime = 0 ∧
        m.confirmedTime = 0 ∧
        m.txHash = "" ∧
        m.signatureStatus = emptySignatureStatus) := by
  constructor
  · intro h
    simp [retryTransaction, h]
  · intro h
    cases hNonce : meta.msg.usesDurableNonce
    · refine ⟨{ meta with
          msg := { meta.msg with recentBlockhash := "", lastValidBlockHeight := 0 }
          hasSignTxParam := false
          id := newId
          status := .Unapproved
          createdTime := now
          submittedTime := 0
          confirmedTime := 0
          txHash := ""
          signatureStatus := emptySignatureStatus
          rawSignatures := [] }, ?_, ?_⟩
      · simp [retryTransaction, h, hNonce]
      · simp [hNonce]
    · refine ⟨{ meta with
          msg := { meta.msg with lastValidBlockHeight := 0 }
          id := newId
          status := .Unapproved
          createdTime := now
          submittedTime := 0
          confirmedTime := 0
          txHash := ""
          signatureStatus := emptySignatureStatus
          rawSignatures := [] }, ?_, ?_⟩
      · simp [retryTransaction, h, hNonce]
      · simp [hNonce]

/-- A retriable durable-nonce transaction with a set blockhash. -/
def durableNonceMeta : SolanaTxMeta :=
  { zeroHeightSubmittedMeta with
    id := "meta4",
    status := .Error,
    txHash := "oldSignature",
    rawSignatures := [[1, 2, 3]],
    hasSignTxParam := true,
    retriable := true,
    msg := { recentBlockhash := "nonceHash", lastValidBlockHeight := 500,
             usesDurableNonce := true } }

/-- Witness for C5: retrying the concrete durable-nonce transaction
preserves its blockhash while clearing the rest. -/
theorem retry_transaction_resets_witness :
    durableNonceMeta.retriable = true ∧
    (∃ m, retryTransaction durableNonceMeta "meta5" 9 = some m ∧
      m.msg.recentBlockhash =
        (if durableNonceMeta.msg.usesDurableNonce then
          durableNonceMeta.msg.recentBlockhash else "") ∧
      m.hasSignTxParam =
        (if durableNonceMeta.msg.usesDurableNonce then
          durableNonceMeta.hasSignTxParam else false) ∧
      m.msg.lastValidBlockHeight = 0 ∧
      m.rawSignatures = [] ∧
      m.id = "meta5" ∧
      m.status = .Unapproved ∧
      m.createdTime = 9 ∧
      m.submittedTime = 0 ∧
      m.confirmedTime = 0 ∧
      m.txHash = "" ∧
      m.signatureStatus = emptySignatureStatus) :=
  ⟨by decide, (retry_transaction_resets durableNonceMeta "meta5" 9).2 (by decide)⟩

/-- A successful base-58 decode yields exactly the requested number of
bytes. -/
theorem base58Decode_length {s : String} {len : Nat} {b : List Nat}
    (h : base58Decode s len = some b) : b.length = len := by
  unfold base58Decode at h
  split at h
  · exact Option.noConfusion h
  · dsimp only at h
    split at h
    next hg => cases h; exact hg
    next => exact Option.noConfusion h

/-- Number of account metas of a successful build, `none` otherwise. -/
def builtAccountCount : TransferBuildResult → Option Nat
  | .ok instr => some instr.accounts.length
  | .fail => none
  | .oob => none

/-- A proof input whose own `canopy_depth` field is 0 while the builder
is called with canopy-depth argument 1; the proof path has one node. -/
def mismatchProofData : SolCompressedNftProofData :=
  { root := "11111111111111111111111111111111",
    dataHash := "11111111111111111111111111111111",
    creatorHash := "11111111111111111111111111111111",
    owner := "ownerPubkey",
    proof := ["proofNode0"],
    merkleTree := "merkleTreePubkey",
    delegate := "",
    leafIndex := 0,
    canopyDepth := 0 }

/-- Counterexample to C6 as stated: the claim counts the trailing proof
accounts as `len(proof_path) - canopy_depth` with `canopy_depth` the
builder's canopy-depth argument.  Calling the builder with argument 1 on
a proof whose own `canopy_depth` field is 0 succeeds with 8 + 1 accounts
— one trailing proof account, not `1 - 1 = 0`: the code ignores the
argument and subtracts the proof's `canopy_depth` field instead. -/
theorem bubblegumTransfer_arg_ignored_counterexample :
    builtAccountCount
      (bubblegumTransfer 1 "treeAuthorityPubkey" "newOwnerPubkey" mismatchProofData) =
      some (8 + 1) ∧
    8 + (mismatchProofData.proof.length - 1) ≠ 8 + 1 := by
  constructor
  · decide
  · decide

/-- C6 amended: for every successful bubblegum `Transfer` build, the
instruction data is exactly the 8-byte discriminator
`[163,52,200,231,140,3,69,186]` followed by 108 bytes — the 32-byte
base58-decoded root, data_hash and creator_hash, the leaf index as an
8-byte little-endian u64, then the same leaf index as a 4-byte
little-endian u32 — and after the fixed 8-account prefix come exactly
`len(proof_path) - canopy_depth` trailing account metas taken from the
proof path in order, all non-signer and non-writable, where
`canopy_depth` is the `canopy_depth` field of the proof argument (the
builder's canopy-depth parameter is ignored by the code). -/
theorem bubblegumTransfer_layout (canopyArg : Nat)
    (treeAuthority newLeafOwner : String) (proof : SolCompressedNftProofData)
    (instr : SolanaInstruction)
    (hok : bubblegumTransfer canopyArg treeAuthority newLeafOwner proof = .ok instr)
    (hlen : proof.proof.length < 2 ^ 64) (hcanopy : proof.canopyDepth < 2 ^ 64) :
    ∃ rootBytes dataHashBytes creatorHashBytes,
      base58Decode proof.root 32 = some rootBytes ∧
      base58Decode proof.dataHash 32 = some dataHashBytes ∧
      base58Decode proof.creatorHash 32 = some creatorHashBytes ∧
      instr.data = [163, 52, 200, 231, 140, 3, 69, 186] ++ rootBytes ++
        dataHashBytes ++ creatorHashBytes ++ uintToLEBytes 8 proof.leafIndex ++
        uintToLEBytes 4 proof.leafIndex ∧
      rootBytes.length = 32 ∧ dataHashBytes.length = 32 ∧
      creatorHashBytes.length = 32 ∧
      (uintToLEBytes 8 proof.leafIndex).length = 8 ∧
      (uintToLEBytes 4 proof.leafIndex).length = 4 ∧
      instr.data.length = 116 ∧
      proof.canopyDepth ≤ proof.proof.length ∧
      instr.accounts =
        bubblegumFixedAccounts treeAuthority newLeafOwner proof ++
          (proof.proof.take (proof.proof.length - proof.canopyDepth)).map
            (fun pk => ⟨pk, false, false⟩) ∧
      (instr.accounts.drop 8).length = proof.proof.length - proof.canopyDepth ∧
      ∀ m ∈ instr.accounts.drop 8, m.isSigner = false ∧ m.isWritable = false := by
  unfold bubblegumTransfer at hok
  cases hroot : base58Decode proof.root 32 with
  | none => rw [hroot] at hok; simp at hok
  | some rootBytes =>
  cases hdata : base58Decode proof.dataHash 32 with
  | none => rw [hroot, hdata] at hok; simp at hok
  | some dataHashBytes =>
  cases hcreator : base58Decode proof.creatorHash 32 with
  | none => rw [hroot, hdata, hcreator] at hok; simp at hok
  | some creatorHashBytes =>
  rw [hroot, hdata, hcreator] at hok
  dsimp only at hok
  have hCm : proof.canopyDepth % 2 ^ 64 = proof.canopyDepth :=
    Nat.mod_eq_of_lt hcanopy
  rw [hCm] at hok
  by_cases hle : proof.canopyDepth ≤ proof.proof.length
  · have hend : (proof.proof.length + 2 ^ 64 - proof.canopyDepth) % 2 ^ 64 =
        proof.proof.length - proof.canopyDepth := by
      have h1 : proof.proof.length + 2 ^ 64 - proof.canopyDepth =
          (proof.proof.length - proof.canopyDepth) + 2 ^ 64 := by omega
      rw [h1, Nat.add_mod_right, Nat.mod_eq_of_lt (by omega)]
    rw [hend, if_pos (Nat.sub_le _ _)] at hok
    cases hok
    refine ⟨rootBytes, dataHashBytes, creatorHashBytes, rfl, rfl, rfl,
      ?_, base58Decode_length hroot, base58Decode_length hdata,
      base58Decode_length hcreator, by simp [uintToLEBytes],
      by simp [uintToLEBytes], ?_, hle, rfl, ?_, ?_⟩
    · simp [bubblegumDiscriminator]
    · simp [bubblegumDiscriminator, uintToLEBytes, base58Decode_length hroot,
        base58Decode_length hdata, base58Decode_length hcreator]
    · rw [show (8 : Nat) =
          (bubblegumFixedAccounts treeAuthority newLeafOwner proof).length from rfl,
        List.drop_left]
      simp [Nat.min_eq_left (Nat.sub_le _ _)]
    · rw [show (8 : Nat) =
          (bubblegumFixedAccounts treeAuthority newLeafOwner proof).length from rfl,
        List.drop_left]
      intro m hm
      rw [List.mem_map] at hm
      obtain ⟨pk, hpk, rfl⟩ := hm
      exact ⟨rfl, rfl⟩
  · exfalso
    have hmod : (proof.proof.length + 2 ^ 64 - proof.canopyDepth) % 2 ^ 64 =
        proof.proof.length + 2 ^ 64 - proof.canopyDepth :=
      Nat.mod_eq_of_lt (by omega)
    rw [hmod, if_neg (by omega)] at hok
    exact TransferBuildResult.noConfusion hok

/-- A proof input on which the builder succeeds: two proof nodes, canopy
depth 1, hashes encoding 32 zero bytes, leaf index 5. -/
def okProofData : SolCompressedNftProofData :=
  { root := "11111111111111111111111111111111",
    dataHash := "11111111111111111111111111111111",
    creatorHash := "11111111111111111111111111111111",
    owner := "ownerPubkey",
    proof := ["proofNode0", "proofNode1"],
    merkleTree := "merkleTreePubkey",
    delegate := "",
    leafIndex := 5,
    canopyDepth := 1 }

/-- The instruction the builder produces for `okProofData`. -/
def okBuiltInstr : SolanaInstruction :=
  { programId := kSolanaBubbleGumProgramId,
    accounts := bubblegumFixedAccounts "treeAuthorityPubkey" "newOwnerPubkey"
        okProofData ++ [⟨"proofNode0", false, false⟩],
    data := bubblegumDiscriminator ++ List.replicate 96 0 ++
      [5, 0, 0, 0, 0, 0, 0, 0] ++ [5, 0, 0, 0] }

/-- Witness for C6 amended at the concrete proof input (builder argument
3, proof field 1). -/
theorem bubblegumTransfer_layout_witness :
    bubblegumTransfer 3 "treeAuthorityPubkey" "newOwnerPubkey" okProofData =
      .ok okBuiltInstr ∧
    okProofData.proof.length < 2 ^ 64 ∧
    okProofData.canopyDepth < 2 ^ 64 ∧
    (∃ rootBytes dataHashBytes creatorHashBytes,
      base58Decode okProofData.root 32 = some rootBytes ∧
      base58Decode okProofData.dataHash 32 = some dataHashBytes ∧
      base58Decode okProofData.creatorHash 32 = some creatorHashBytes ∧
      okBuiltInstr.data = [163, 52, 200, 231, 140, 3, 69, 186] ++ rootBytes ++
        dataHashBytes ++ creatorHashBytes ++ uintToLEBytes 8 okProofData.leafIndex ++
        uintToLEBytes 4 okProofData.leafIndex ∧
      rootBytes.length = 32 ∧ dataHashBytes.length = 32 ∧
      creatorHashBytes.length = 32 ∧
      (uintToLEBytes 8 okProofData.leafIndex).length = 8 ∧
      (uintToLEBytes 4 okProofData.leafIndex).length = 4 ∧
      okBuiltInstr.data.length = 116 ∧
      okProofData.canopyDepth ≤ okProofData.proof.length ∧
      okBuiltInstr.accounts =
        bubblegumFixedAccounts "treeAuthorityPubkey" "newOwnerPubkey" okProofData ++
          (okProofData.proof.take
            (okProofData.proof.length - okProofData.canopyDepth)).map
            (fun pk => ⟨pk, false, false⟩) ∧
      (okBuiltInstr.accounts.drop 8).length =
        okProofData.proof.length - okProofData.canopyDepth ∧
      ∀ m ∈ okBuiltInstr.accounts.drop 8, m.isSigner = false ∧ m.isWritable = false) :=
  ⟨by decide, by decide, by decide,
    bubblegumTransfer_layout 3 "treeAuthorityPubkey" "newOwnerPubkey" okProofData
      okBuiltInstr (by decide) (by decide) (by decide)⟩

/-- The meta produced by retrying `durableNonceMeta`: the nonce-bearing
blockhash is preserved while the last-valid-block-height is cleared. -/
def retriedNonceMeta : SolanaTxMeta :=
  { durableNonceMeta with
    id := "meta6",
    status := .Unapproved,
    createdTime := 9,
    submittedTime := 0,
    confirmedTime := 0,
    txHash := "",
    signatureStatus := emptySignatureStatus,
    rawSignatures := [],
    msg := { recentBlockhash := "nonceHash", lastValidBlockHeight := 0,
             usesDurableNonce := true } }

/-- Counterexample to C7 as stated: the blockhash/last-valid-block-height
invariant is claimed to be preserved by every manager operation
including retry of a durable-nonce transaction; retrying the concrete
durable-nonce transaction (blockhash "nonceHash", height 500, invariant
holds) keeps the blockhash but zeroes the height, breaking the
invariant. -/
theorem retry_nonce_invariant_counterexample :
    blockhashHeightInvariant durableNonceMeta.msg ∧
    retryTransaction durableNonceMeta "meta6" 9 = some retriedNonceMeta ∧
    ¬ blockhashHeightInvariant retriedNonceMeta.msg := by
  refine ⟨?_, ?_, ?_⟩
  · simp [blockhashHeightInvariant, durableNonceMeta]
  · decide
  · simp [blockhashHeightInvariant, retriedNonceMeta]

/-- C7 amended: the blockhash/height invariant is preserved by every
meta the approve flow persists (given the RPC returns a non-empty
blockhash, a nonzero last-valid-block-height and a height whose
150-window does not vanish) and by the fee-estimation rewrite, and
retry preserves it for non-durable-nonce messages (both fields
cleared); retry of a durable-nonce transaction whose blockhash is set,
however, breaks the invariant — the blockhash is preserved while the
last-valid-block-height is cleared to 0. -/
theorem blockhash_height_invariant_cases (meta : SolanaTxMeta) (env : ApproveEnv)
    (newId : String) (now : Nat)
    (hbh : env.latestBlockhash ≠ "")
    (hlv : env.latestValidBlockHeight ≠ 0)
    (hplus : (env.blockHeight + kValidBlockHeightThreshold) % 2 ^ 64 ≠ 0) :
    (∀ m, TxEffect.persist m ∈ approveTransaction meta env →
      blockhashHeightInvariant m.msg) ∧
    blockhashHeightInvariant
      (feeEstimationMeta meta env.latestBlockhash env.latestValidBlockHeight).msg ∧
    (∀ m, retryTransaction meta newId now = some m →
      meta.msg.usesDurableNonce = false → blockhashHeightInvariant m.msg) ∧
    (∀ m, retryTransaction meta newId now = some m →
      meta.msg.usesDurableNonce = true → meta.msg.recentBlockhash ≠ "" →
      ¬ blockhashHeightInvariant m.msg) := by
  refine ⟨?_, ?_, ?_, ?_⟩
  · intro m hm
    by_cases hempty : meta.msg.recentBlockhash = ""
    · cases herr : env.latestBlockhashError
      · cases hp : env.persistOk <;>
          simp [approveTransaction, hempty, onGetLatestBlockhash, herr, hp] at hm <;>
          · subst hm
            simp [blockhashHeightInvariant, approvedMeta, hbh, hlv]
      · simp [approveTransaction, hempty, onGetLatestBlockhash, herr] at hm
    · cases herr : env.blockHeightError
      · have hplus2 : (env.blockHeight + kValidBlockHeightThreshold) %
            18446744073709551616 ≠ 0 := by simpa using hplus
        cases hp : env.persistOk <;>
          simp [approveTransaction, hempty, onGetBlockHeightForBlockhash,
            onGetLatestBlockhash, herr, hp] at hm <;>
          · subst hm
            simp [blockhashHeightInvariant, approvedMeta, hempty, hplus2]
      · simp [approveTransaction, hempty, onGetBlockHeightForBlockhash, herr] at hm
  · simp [blockhashHeightInvariant, feeEstimationMeta, hbh, hlv]
  · intro m hm hnonce
    cases hr : meta.retriable
    · simp [retryTransaction, hr] at hm
    · simp [retryTransaction, hr, hnonce] at hm
      subst hm
      simp [blockhashHeightInvariant]
  · intro m hm hnonce hset
    cases hr : meta.retriable
    · simp [retryTransaction, hr] at hm
    · simp [retryTransaction, hr, hnonce] at hm
      subst hm
      simp [blockhashHeightInvariant, hset]

/-- Witness for C7 amended: retrying the concrete durable-nonce
transaction under the all-success environment breaks the invariant. -/
theorem blockhash_height_invariant_cases_witness :
    happyApproveEnv.latestBlockhash ≠ "" ∧
    happyApproveEnv.latestValidBlockHeight ≠ 0 ∧
    (happyApproveEnv.blockHeight + kValidBlockHeightThreshold) % 2 ^ 64 ≠ 0 ∧
    ¬ blockhashHeightInvariant retriedNonceMeta.msg :=
  ⟨by decide, by decide, by decide,
    (blockhash_height_invariant_cases durableNonceMeta happyApproveEnv "meta6" 9
      (by decide) (by decide) (by decide)).2.2.2 retriedNonceMeta
      (by decide) (by decide) (by decide)⟩

/-- Below `2 ^ 53` the 53-bit rounding is the identity: the value is
exactly representable as a double. -/
theorem roundNat53_eq_self {n : Nat} (h : n < 2 ^ 53) : roundNat53 n = n := by
  unfold roundNat53
  rw [if_pos]
  rcases Nat.eq_zero_or_pos n with hz | hp
  · subst hz
    decide
  · have h1 : log2Fuel 64 n = Nat.log2 n :=
      log2Fuel_eq_log2 64 n (lt_trans h (by norm_num))
    have h2 : Nat.log2 n < 53 := (Nat.log2_lt (Nat.pos_iff_ne_zero.mp hp)).mpr h
    omega

/-- Shifting the canopy computation into the logarithm: for nonzero `L`,
`log2 (L + 64)` and `log2 (L / 32 + 2) + 5` cross their power-of-two
thresholds at the same values of `L` (multiples of 32), so they are
equal. -/
theorem log2_shift32 (L : Nat) :
    Nat.log2 (L + 64) = Nat.log2 (L / 32 + 2) + 5 := by
  have hne : L / 32 + 2 ≠ 0 := by omega
  simp only [Nat.log2_eq_log_two]
  have hlow : 2 ^ Nat.log 2 (L / 32 + 2) ≤ L / 32 + 2 := Nat.pow_log_le_self 2 hne
  have hhigh : L / 32 + 2 < 2 ^ (Nat.log 2 (L / 32 + 2)).succ :=
    Nat.lt_pow_succ_log_self (by norm_num) _
  have epow : (2 : Nat) ^ (Nat.log 2 (L / 32 + 2)).succ =
      2 * 2 ^ Nat.log 2 (L / 32 + 2) := by
    rw [pow_succ]
    ring
  rw [epow] at hhigh
  have h1 : 2 ^ (Nat.log 2 (L / 32 + 2) + 5) ≤ L + 64 := by
    have e5 : (2 : Nat) ^ (Nat.log 2 (L / 32 + 2) + 5) =
        32 * 2 ^ Nat.log 2 (L / 32 + 2) := by
      rw [pow_add]
      ring
    rw [e5]
    omega
  have h2 : L + 64 < 2 ^ (Nat.log 2 (L / 32 + 2) + 5 + 1) := by
    have e6 : (2 : Nat) ^ (Nat.log 2 (L / 32 + 2) + 5 + 1) =
        64 * 2 ^ Nat.log 2 (L / 32 + 2) := by
      rw [pow_add, pow_add]
      ring
    rw [e6]
    omega
  exact Nat.log_eq_of_pow_le_of_lt_pow h1 h2

/-- Every position of an all-zero replicate list reads as zero. -/
theorem getD_replicate_zero (n i : Nat) : (List.replicate n (0 : Nat)).getD i 0 = 0 := by
  induction n generalizing i with
  | zero => simp
  | succ n ih =>
    cases i with
    | zero => simp [List.replicate_succ]
    | succ i => simp [List.replicate_succ, ih]

/-- Dropping from an all-zero replicate list. -/
theorem drop_replicate_zero (k n : Nat) :
    (List.replicate n (0 : Nat)).drop k = List.replicate (n - k) 0 := by
  induction k generalizing n with
  | zero => simp
  | succ k ih =>
    cases n with
    | zero => simp
    | succ n => simp [List.replicate_succ, ih n]

/-- Taking a covered amount from an all-zero replicate list. -/
theorem take_replicate_zero (k n : Nat) (h : k ≤ n) :
    (List.replicate n (0 : Nat)).take k = List.replicate k 0 := by
  induction k generalizing n with
  | zero => simp
  | succ k ih =>
    cases n with
    | zero => omega
    | succ n => simp [List.replicate_succ, ih n (by omega)]

/-- Symbolic evaluation of the decoder on a buffer of shape
`1 :: 0 :: replicate N 0` (valid header, maxBufferSize 0, maxDepth 0,
all-zero authority and body) of any length. -/
theorem decode_header_zero_buffer (N : Nat) (h40 : 40 ≤ N) :
    decodeMerkleTreeAuthorityAndDepth (1 :: 0 :: List.replicate N 0) =
      some (canopyDepthFromBytes
          (((N + 2) % 2 ^ 64 + 2 ^ 64 - merkleTotalOffset 0 0) % 2 ^ 64),
        List.replicate 32 0) := by
  have hlen : (1 :: 0 :: List.replicate N (0 : Nat)).length = N + 2 := by simp
  have h0 : decodeUint8 (1 :: 0 :: List.replicate N (0 : Nat)) 0 = some 1 := by
    unfold decodeUint8
    rw [hlen, if_neg (by omega)]
    rfl
  have h1 : decodeUint8 (1 :: 0 :: List.replicate N (0 : Nat)) 1 = some 0 := by
    unfold decodeUint8
    rw [hlen, if_neg (by omega)]
    rfl
  have hB : decodeUint32 (1 :: 0 :: List.replicate N (0 : Nat)) 2 = some 0 := by
    unfold decodeUint32
    rw [hlen, if_neg (by omega)]
    simp [getD_replicate_zero]
  have hd : decodeUint32 (1 :: 0 :: List.replicate N (0 : Nat)) 6 = some 0 := by
    unfold decodeUint32
    rw [hlen, if_neg (by omega)]
    simp [getD_replicate_zero]
  have hpk : decodePublicKey (1 :: 0 :: List.replicate N (0 : Nat)) 10 =
      some (List.replicate 32 0) := by
    unfold decodePublicKey
    rw [hlen, if_neg (by omega)]
    have hdrop : (1 :: 0 :: List.replicate N (0 : Nat)).drop 10 =
        List.replicate (N - 8) 0 := by
      show (List.replicate N (0 : Nat)).drop 8 = List.replicate (N - 8) 0
      exact drop_replicate_zero 8 N
    rw [hdrop, take_replicate_zero 32 (N - 8) (by omega)]
  unfold decodeMerkleTreeAuthorityAndDepth
  rw [h0]
  dsimp only
  rw [if_neg (by omega)]
  rw [h1]
  dsimp only
  rw [if_neg (by omega)]
  rw [hB]
  dsimp only
  rw [hd]
  dsimp only
  rw [hpk]
  dsimp only
  rw [hlen]

/-- Counterexample to C8 as stated: a buffer of length `2 ^ 63 + 40`
with a valid zero header leaves `2 ^ 63 - 80` canopy bytes, which the
int-to-double conversion rounds up to `2 ^ 63`; the code's double
pipeline then yields depth 57 while the claimed formula
`floor(log2(remaining / 32 + 2) - 1)` gives 56. -/
theorem merkle_canopy_formula_counterexample :
    decodeMerkleTreeAuthorityAndDepth (1 :: 0 :: List.replicate (2 ^ 63 + 38) 0) =
      some (57, List.replicate 32 0) ∧
    (1 :: 0 :: List.replicate (2 ^ 63 + 38) 0).length - merkleTotalOffset 0 0 =
      2 ^ 63 - 80 ∧
    (2 : Nat) ^ 63 - 80 ≠ 0 ∧
    Nat.log2 (((2 : Nat) ^ 63 - 80) / 32 + 2) - 1 = 56 ∧
    (57 : Nat) ≠ 56 := by
  refine ⟨?_, ?_, by norm_num, ?_, by norm_num⟩
  · rw [decode_header_zero_buffer (2 ^ 63 + 38) (by norm_num)]
    rw [show (((2 : Nat) ^ 63 + 38 + 2) % 2 ^ 64 + 2 ^ 64 - merkleTotalOffset 0 0) %
        2 ^ 64 = 2 ^ 63 - 80 from by decide]
    rw [show canopyDepthFromBytes ((2 : Nat) ^ 63 - 80) = 57 from by decide]
  · rw [List.length_cons, List.length_cons, List.length_replicate,
      show merkleTotalOffset 0 0 = 120 from by decide]
    norm_num
  · have harg : ((2 : Nat) ^ 63 - 80) / 32 + 2 = 2 ^ 58 - 1 := by decide
    rw [harg, Nat.log2_eq_log_two,
      Nat.log_eq_of_pow_le_of_lt_pow (by norm_num : (2 : Nat) ^ 57 ≤ 2 ^ 58 - 1)
        (by norm_num : (2 : Nat) ^ 58 - 1 < 2 ^ (57 + 1))]

/-- C8 amended: for every Merkle-tree account buffer the decoder accepts
whose length covers the header, ring buffer and rightmost-path record
and whose remaining canopy byte count is below `2 ^ 32` (the double
arithmetic is exact there, and every real account buffer is orders of
magnitude smaller): if zero bytes remain the decoded canopy depth is 0,
and if a positive number of bytes remain it is
`floor(log2(remaining_bytes / 32 + 2) - 1)`; for astronomically longer
buffers the int-to-double rounding makes the decoded depth diverge from
this formula (see the counterexample).  `maxBufferSize` and `maxDepth`
are the fields decoded from the buffer itself. -/
theorem merkle_canopy_depth_formula (data : List Nat) (depth : Nat)
    (authority : List Nat) (maxBufferSize maxDepth : Nat)
    (hB : decodeUint32 data 2 = some maxBufferSize)
    (hd : decodeUint32 data 6 = some maxDepth)
    (hdec : decodeMerkleTreeAuthorityAndDepth data = some (depth, authority))
    (hoff : merkleTotalOffset maxBufferSize maxDepth ≤ data.length)
    (hlen : data.length < 2 ^ 64)
    (hsmall : data.length - merkleTotalOffset maxBufferSize maxDepth < 2 ^ 32) :
    (data.length - merkleTotalOffset maxBufferSize maxDepth = 0 → depth = 0) ∧
    (data.length - merkleTotalOffset maxBufferSize maxDepth ≠ 0 →
      depth = Nat.log2
        ((data.length - merkleTotalOffset maxBufferSize maxDepth) / 32 + 2) - 1) := by
  unfold decodeMerkleTreeAuthorityAndDepth at hdec
  cases h0 : decodeUint8 data 0 with
  | none => rw [h0] at hdec; exact Option.noConfusion hdec
  | some t0 =>
  rw [h0] at hdec
  dsimp only at hdec
  by_cases ht0 : t0 ≠ 1
  · rw [if_pos ht0] at hdec; exact Option.noConfusion hdec
  · rw [if_neg ht0] at hdec
    cases h1 : decodeUint8 data 1 with
    | none => rw [h1] at hdec; exact Option.noConfusion hdec
    | some t1 =>
    rw [h1] at hdec
    dsimp only at hdec
    by_cases ht1 : t1 ≠ 0
    · rw [if_pos ht1] at hdec; exact Option.noConfusion hdec
    · rw [if_neg ht1] at hdec
      rw [hB] at hdec
      dsimp only at hdec
      rw [hd] at hdec
      dsimp only at hdec
      cases hpk : decodePublicKey data 10 with
      | none => rw [hpk] at hdec; exact Option.noConfusion hdec
      | some auth =>
      rw [hpk] at hdec
      dsimp only at hdec
      obtain ⟨hdepth, _⟩ := (Prod.mk.injEq _ _ _ _).mp (Option.some.inj hdec)
      have hm1 : data.length % 2 ^ 64 = data.length := Nat.mod_eq_of_lt hlen
      have hcbl : (data.length % 2 ^ 64 + 2 ^ 64 -
          merkleTotalOffset maxBufferSize maxDepth) % 2 ^ 64 =
          data.length - merkleTotalOffset maxBufferSize maxDepth := by
        rw [hm1]
        have h2 : data.length + 2 ^ 64 - merkleTotalOffset maxBufferSize maxDepth =
            (data.length - merkleTotalOffset maxBufferSize maxDepth) + 2 ^ 64 := by
          omega
        rw [h2, Nat.add_mod_right, Nat.mod_eq_of_lt (by omega)]
      rw [hcbl] at hdepth
      constructor
      · intro hz
        rw [← hdepth]
        unfold canopyDepthFromBytes
        rw [if_pos hz]
      · intro hnz
        rw [← hdepth]
        unfold canopyDepthFromBytes
        rw [if_neg hnz]
        have hsmall53 : data.length - merkleTotalOffset maxBufferSize maxDepth <
            2 ^ 53 := lt_trans hsmall (by norm_num)
        rw [roundNat53_eq_self hsmall53]
        have hsum53 : data.length - merkleTotalOffset maxBufferSize maxDepth + 64 <
            2 ^ 53 := by
          have : (2 : Nat) ^ 32 + 64 < 2 ^ 53 := by norm_num
          omega
        rw [roundNat53_eq_self hsum53]
        rw [log2Fuel_eq_log2 64 _ (lt_trans hsum53 (by norm_num))]
        rw [log2_shift32]
        omega

/-- A well-formed 280-byte buffer: header with maxBufferSize 0 and
maxDepth 0 needs 120 bytes, leaving 160 canopy bytes and hence canopy
depth `floor(log2(160 / 32 + 2) - 1) = 1`. -/
def merkleCanopyBuffer : List Nat := 1 :: 0 :: List.replicate 278 0

set_option maxRecDepth 100000 in
/-- Witness for C8 amended at the concrete 280-byte buffer. -/
theorem merkle_canopy_depth_formula_witness :
    decodeUint32 merkleCanopyBuffer 2 = some 0 ∧
    decodeUint32 merkleCanopyBuffer 6 = some 0 ∧
    decodeMerkleTreeAuthorityAndDepth merkleCanopyBuffer =
      some (1, List.replicate 32 0) ∧
    merkleTotalOffset 0 0 ≤ merkleCanopyBuffer.length ∧
    merkleCanopyBuffer.length < 2 ^ 64 ∧
    merkleCanopyBuffer.length - merkleTotalOffset 0 0 < 2 ^ 32 ∧
    ((merkleCanopyBuffer.length - merkleTotalOffset 0 0 = 0 → 1 = 0) ∧
     (merkleCanopyBuffer.length - merkleTotalOffset 0 0 ≠ 0 →
       1 = Nat.log2 ((merkleCanopyBuffer.length - merkleTotalOffset 0 0) / 32 + 2) - 1)) :=
  ⟨by decide, by decide, by decide, by decide, by decide, by decide,
    merkle_canopy_depth_formula merkleCanopyBuffer 1 (List.replicate 32 0) 0 0
      (by decide) (by decide) (by decide) (by decide) (by decide) (by decide)⟩

/-- Filtering after a partial map equals mapping with a guard folded
into the optional step. -/
theorem filterMap_bind_guard {α β : Type} (l : List α) (f : α → Option β)
    (p : β → Bool) :
    (l.filterMap fun a => (f a).bind fun b => if p b then some b else none) =
      (l.filterMap f).filter p := by
  induction l with
  | nil => rfl
  | cons a t ih =>
    cases hfa : f a with
    | none => simp [List.filterMap_cons, hfa, ih]
    | some b =>
      by_cases hp : p b
      · simp [List.filterMap_cons, hfa, hp, ih, List.filter_cons]
      · simp [List.filterMap_cons, hfa, hp, ih, List.filter_cons]

/-- C9: parsing an NFT page with `skip_spam = true` and
`only_spam = true` yields an absent result (the flags are mutually
exclusive), and parsing with both flags false yields every parseable
record of the page — both its spam records (exactly those the
`only_spam` run returns) and its non-spam records (exactly those the
`skip_spam` run returns). -/
theorem parseNFTs_spam_flag_behavior (nfts : List SimpleHashNft) :
    parseNFTsFromSimpleHash nfts true true = none ∧
    ∃ allRecords, parseNFTsFromSimpleHash nfts false false = some allRecords ∧
      parseNFTsFromSimpleHash nfts true false =
        some (allRecords.filter fun r => !r.isSpam) ∧
      parseNFTsFromSimpleHash nfts false true =
        some (allRecords.filter fun r => r.isSpam) := by
  refine ⟨rfl, nfts.filterMap nftFromSimpleHash, ?_, ?_, ?_⟩
  · unfold parseNFTsFromSimpleHash
    simp
  · unfold parseNFTsFromSimpleHash
    rw [if_neg (by simp)]
    have hfun : (fun e => (nftFromSimpleHash e).bind fun r =>
        if true && r.isSpam then none
        else if false && !r.isSpam then none else some r) =
        fun e => (nftFromSimpleHash e).bind fun r =>
          if !r.isSpam then some r else none := by
      funext e
      cases nftFromSimpleHash e with
      | none => rfl
      | some r => cases hr : r.isSpam <;> simp [hr]
    rw [hfun, filterMap_bind_guard]
  · unfold parseNFTsFromSimpleHash
    rw [if_neg (by simp)]
    have hfun : (fun e => (nftFromSimpleHash e).bind fun r =>
        if false && r.isSpam then none
        else if true && !r.isSpam then none else some r) =
        fun e => (nftFromSimpleHash e).bind fun r =>
          if r.isSpam then some r else none := by
      funext e
      cases nftFromSimpleHash e with
      | none => rfl
      | some r => cases hr : r.isSpam <;> simp [hr]
    rw [hfun, filterMap_bind_guard]
